import Mathlib

/-!
Verification development for the sg-ask-me backend.

The definitions below are a shallow embedding of the Python source:

* `RateLimit` embeds `app/core/rate_limit.py`: the per-key Redis sorted set
  is a list of `(member, score)` pairs with unique members, and the pipeline
  `zadd` / `zremrangebyscore` / `zcard` / `expire` is executed as one atomic
  step (`rateCheckStep`), matching the transactional pipeline in the source.
* `Chat` embeds the SSE framing and the generator `gen` of
  `app/api/routes_chat.py`, including its `try`/`except` error frame and the
  `break` on a `done` event, plus an action-trace model of the `with` block.
* `Factory` embeds `app/services/llm/factory.py` (provider registry).
* `Gemini` embeds the model-name selection of
  `app/services/llm/gemini_provider.py` and the adapter exit.
-/

namespace SgAskMe

namespace RateLimit

/-- One per-key Redis sorted set: association list of member string to score,
members unique. -/
abbrev ZSet := List (String × Int)

/-- Embeds `pipe.zadd(key, {str(now): now})` for one key: update the member
score if the member exists, otherwise append the member. -/
def zadd (s : ZSet) (member : String) (score : Int) : ZSet :=
  if s.any (fun p => p.1 == member) then
    s.map (fun p => if p.1 == member then (member, score) else p)
  else
    s ++ [(member, score)]

/-- Embeds `pipe.zremrangebyscore(key, lo, hi)`: drop members whose score
lies in the closed interval `[lo, hi]`. -/
def zremrangebyscore (s : ZSet) (lo hi : Int) : ZSet :=
  s.filter (fun p => !(decide (lo ≤ p.2) && decide (p.2 ≤ hi)))

/-- Embeds `pipe.zcard(key)`: the number of members. -/
def zcard (s : ZSet) : Nat := s.length

/-- Admission decision of the dependency: admit, or reject with an HTTP
status and detail (the `HTTPException(429, "Rate limit exceeded")`). -/
inductive Decision
  | admitted
  | rejected (status : Nat) (detail : String)
deriving DecidableEq

/-- Result of one admission check: the key's new sorted set, the decision,
and the expiry refreshed by `pipe.expire(key, window_sec + 5)`. -/
structure CheckResult where
  store : ZSet
  decision : Decision
  expireSec : Int
deriving DecidableEq

/-- Embeds the body of `rate_limit.dep` when the store is reachable: the
four pipeline steps run as one atomic unit (redis-py transactional
pipeline), then `if int(count) > limit: raise HTTPException(429, ...)`. -/
def rateCheckStep (limit window_sec : Int) (s : ZSet) (now : Int) : CheckResult :=
  let s1 := zadd s (toString now) now
  let s2 := zremrangebyscore s1 0 (now - window_sec)
  let count : Int := (zcard s2 : Int)
  { store := s2
    decision := if count > limit then .rejected 429 "Rate limit exceeded" else .admitted
    expireSec := window_sec + 5 }

/-- Embeds `rate_limit.dep` with store reachability made explicit: on
`redis.ConnectionError` the handler is `pass` — the request is admitted, the
store is untouched, and (the source contains no logger call) the emitted log
lines are `[]`. -/
def dep (storeUp : Bool) (limit window_sec : Int) (s : ZSet) (now : Int) :
    Decision × ZSet × List String :=
  if storeUp then
    let r := rateCheckStep limit window_sec s now
    (r.decision, r.store, [])
  else
    (.admitted, s, [])

/-- Run a sequence of admission checks on one key, threading the key's
sorted set; returns the decisions in order. Models serial execution, which
the atomic pipeline guarantees is what any concurrent schedule amounts to. -/
def runChecks (limit window_sec : Int) : ZSet → List Int → List Decision
  | _, [] => []
  | s, t :: ts =>
    let r := rateCheckStep limit window_sec s t
    r.decision :: runChecks limit window_sec r.store ts

end RateLimit

namespace Chat

/-- Embeds the dataclass `StreamEvent` of `app/services/llm/base.py`:
`kind` is `"delta"` or `"done"`, with optional `text` and `response_id`. -/
structure StreamEvent where
  kind : String
  text : Option String := none
  response_id : Option String := none
deriving DecidableEq

/-- Python truthiness of an optional string: `None` and `""` are falsy. -/
def truthy : Option String → Bool
  | none => false
  | some s => s != ""

/-- Embeds `sse(event, data)` of `app/api/routes_chat.py`. -/
def sse (event data : String) : String :=
  "event: " ++ event ++ "\ndata: " ++ data ++ "\n\n"

/-- One run of an adapter stream as the generator observes it: the events
pulled in order, and `raises = some m` when the next pull (or, with
`events = []`, acquiring the stream) raises an exception with message `m`. -/
structure StreamRun where
  events : List StreamEvent
  raises : Option String := none
deriving DecidableEq

/-- Embeds the frame output of the generator `gen` in `chat_stream`: emit a
delta frame for a delta event with truthy text, emit a done frame and
`break` for a done event with truthy `response_id`, skip anything else; if
the (remaining) iteration raises, the `except` clause yields exactly one
error frame. -/
def genLoop : List StreamEvent → Option String → List String
  | [], none => []
  | [], some m => [sse "error" ("Stream error: " ++ m)]
  | e :: rest, r =>
    if e.kind == "delta" && truthy e.text then
      sse "delta" (e.text.getD "") :: genLoop rest r
    else if e.kind == "done" && truthy e.response_id then
      [sse "done" (e.response_id.getD "")]
    else
      genLoop rest r

/-- The transport frames produced by `gen` for one stream run. -/
def genFrames (run : StreamRun) : List String :=
  genLoop run.events run.raises

/-- Does the frame string start with `event: <kind>` followed by a newline?
Classifies SSE frames by their kind at the transport level. -/
def frameHasKind (kind : String) (f : String) : Bool :=
  List.isPrefixOf ("event: " ++ kind ++ "\n").data f.data

/-- Observable actions of the generator `gen` against the stream handle:
acquiring the handle, pulling the next event, yielding a frame downstream,
invoking the handle exit (`__exit__` of the `with` block), and re-raising. -/
inductive GenAct
  | acquire
  | pull
  | yieldFrame (f : String)
  | exitHandle
  | raiseOut (m : String)
deriving DecidableEq

/-- Downstream budget: `none` when the client consumes every frame, `some k`
when the client disconnects after consuming `k` frames. Yielding with an
exhausted budget resumes the generator with `GeneratorExit` (which
`except Exception` does not catch). -/
def takeYield : Option Nat → Option (Option Nat)
  | none => some none
  | some 0 => none
  | some (k + 1) => some (some k)

/-- Action trace of the `with provider.stream_chat(...) as stream:` body
after the handle is acquired: the `for` loop pulls and yields frames; on
`break`, normal exhaustion, an exception from a pull, or `GeneratorExit`
from a yield, the `with` block unwinds and invokes the handle exit; an
exception then reaches the `except` clause, which yields one error frame
and re-raises. -/
def genSteps : List StreamEvent → Option String → Option Nat → List GenAct
  | [], none, _ => [GenAct.pull, GenAct.exitHandle]
  | [], some m, b =>
    GenAct.pull :: GenAct.exitHandle ::
      (match takeYield b with
       | none => []
       | some _ => [GenAct.yieldFrame (sse "error" ("Stream error: " ++ m)),
                    GenAct.raiseOut m])
  | e :: rest, r, b =>
    GenAct.pull ::
      (if e.kind == "delta" && truthy e.text then
        match takeYield b with
        | none => [GenAct.exitHandle]
        | some b2 => GenAct.yieldFrame (sse "delta" (e.text.getD "")) :: genSteps rest r b2
      else if e.kind == "done" && truthy e.response_id then
        match takeYield b with
        | none => [GenAct.exitHandle]
        | some _ => [GenAct.yieldFrame (sse "done" (e.response_id.getD "")),
                     GenAct.exitHandle]
      else genSteps rest r b)

/-- Full action trace of one generator run: acquire the handle, then run the
loop under the given downstream budget. -/
def genTrace (run : StreamRun) (budget : Option Nat) : List GenAct :=
  GenAct.acquire :: genSteps run.events run.raises budget

end Chat

namespace Factory

/-- Provider classes that can populate the registry of
`app/services/llm/factory.py`; `custom` stands for classes registered at
startup or by tests. -/
inductive ProviderClass
  | openaiProvider
  | geminiProvider
  | custom (name : String)
deriving DecidableEq

/-- The module-level `_registry` dict: insertion-ordered keys to classes. -/
abbrev Registry := List (String × ProviderClass)

/-- Python dict lookup `_registry[key]` as an option. -/
def lookupKey (reg : Registry) (k : String) : Option ProviderClass :=
  (reg.find? (fun p => p.1 == k)).map (fun p => p.2)

/-- Python dict assignment `_registry[key] = cls`: overwrite in place if the
key exists, otherwise append. -/
def setKey (reg : Registry) (k : String) (v : ProviderClass) : Registry :=
  if reg.any (fun p => p.1 == k) then
    reg.map (fun p => if p.1 == k then (k, v) else p)
  else
    reg ++ [(k, v)]

/-- Python `a or b` on strings: the empty string is falsy. -/
def pyOr (s fallback : String) : String :=
  if s = "" then fallback else s

/-- Python `str.strip()`: drop whitespace from both ends. -/
def pyStrip (s : String) : String :=
  ⟨((s.data.dropWhile Char.isWhitespace).reverse.dropWhile Char.isWhitespace).reverse⟩

/-- Python `str.lower()` (ASCII range, which covers the provider keys). -/
def pyLower (s : String) : String :=
  ⟨s.data.map Char.toLower⟩

/-- Python `repr` of a string (`{x!r}` in the f-string), modulo escaping. -/
def pyRepr (s : String) : String := "\x27" ++ s ++ "\x27"

/-- Python `repr` of `list(_registry.keys())`. -/
def keysReprAux : List String → String
  | [] => ""
  | [k] => pyRepr k
  | k :: rest => pyRepr k ++ ", " ++ keysReprAux rest

/-- Formatted list of registry keys, as `{list(_registry.keys())}` prints. -/
def keysRepr (reg : Registry) : String :=
  "[" ++ keysReprAux (reg.map (fun p => p.1)) ++ "]"

/-- Embeds `get_llm_provider`: normalize `settings.LLM_PROVIDER` with
`(... or "openai").strip().lower()`, look it up, and on a miss raise
`ValueError` with a message naming the raw setting and the known keys. -/
def get_llm_provider (reg : Registry) (llm_provider_setting : String) :
    Except String ProviderClass :=
  let key := pyLower (pyStrip (pyOr llm_provider_setting "openai"))
  match lookupKey reg key with
  | some cls => .ok cls
  | none =>
    .error ("Unknown LLM_PROVIDER=" ++ pyRepr llm_provider_setting ++
      ". Supported: " ++ keysRepr reg)

/-- Embeds `register_provider`: store under `name.strip().lower()`. -/
def register_provider (reg : Registry) (name : String) (cls : ProviderClass) :
    Registry :=
  setKey reg (pyLower (pyStrip name)) cls

end Factory

namespace Gemini

/-- The preference-ordered fallback list `preferred_models` inside
`GeminiProvider.stream_chat`. -/
def preferred_models : List String :=
  ["gemini-3-flash-preview", "gemini-1.5-flash", "gemini-1.5-pro", "gemini-2.0-flash"]

/-- Embeds the model-name selection of `GeminiProvider.stream_chat`: keep a
truthy `model`; otherwise, when discovery returned models, take the first
preferred one present (`for ... break`, left as `""` when none matches) and
fall back to the first discovered model; with no discovered models use the
head of the preference list. -/
def selectModelName (model : String) (available : List String) : String :=
  if model != "" then model
  else if available.isEmpty then preferred_models.headD ""
  else
    let fromLoop := (preferred_models.find? (fun p => available.contains p)).getD ""
    if fromLoop = "" then
      (if available.isEmpty then preferred_models.headD "" else available.headD "")
    else fromLoop

/-- State of the vendor-side Gemini stream: whether the underlying network
connection has been released. -/
structure VendorStream where
  closed : Bool
deriving DecidableEq

/-- State of `_GeminiStreamAdapter`: the wrapped vendor stream and the
`_response_id` accumulator. -/
structure StreamAdapter where
  stream : VendorStream
  response_id : Option String := none
deriving DecidableEq

/-- Embeds `_GeminiStreamAdapter.__exit__(*args)`, whose body is `pass`:
the adapter state, the vendor stream included, is returned unchanged. -/
def adapterExit (a : StreamAdapter) : StreamAdapter := a

end Gemini

open RateLimit Chat Factory Gemini

theorem frameHasKind_error_delta (t : String) :
    frameHasKind "error" (sse "delta" t) = false := rfl

theorem frameHasKind_done_delta (t : String) :
    frameHasKind "done" (sse "delta" t) = false := rfl

theorem frameHasKind_error_error (m : String) :
    frameHasKind "error" (sse "error" m) = true := rfl

theorem frameHasKind_done_error (m : String) :
    frameHasKind "done" (sse "error" m) = false := rfl

/-- Claim C1. With `limit = 20`, `window_sec = 60`, 20 admission checks for
one key in the same second are all admitted (spec agrees), but a 21st check
in the same window is also admitted — whether issued in the same second or
30 seconds later — because same-second requests share the sorted-set member
`str(now)` and `zcard` never sees them as distinct; a check after the window
is admitted (spec agrees). The claim says the 21st check rejects; the code
admits it. -/
theorem rateLimit_sameSecond_21st_admitted :
    runChecks 20 60 [] (List.replicate 20 1000) = List.replicate 20 Decision.admitted ∧
    runChecks 20 60 [] (List.replicate 20 1000 ++ [1000]) =
      List.replicate 21 Decision.admitted ∧
    runChecks 20 60 [] (List.replicate 20 1000 ++ [1030]) =
      List.replicate 21 Decision.admitted ∧
    runChecks 20 60 [] (List.replicate 20 1000 ++ [1061]) =
      List.replicate 21 Decision.admitted := by
  decide

/-- Claim C2. Even granting the atomicity of the transactional pipeline
(so that any concurrent schedule is equivalent to the serial one modelled
by `runChecks`), 100 simultaneous admission checks on one key with
`limit = 20` are all admitted, not 20: all 100 share the timestamp member
`str(now)`, so the counted cardinality stays 1. -/
theorem rateLimit_hundred_simultaneous_all_admitted :
    runChecks 20 60 [] (List.replicate 100 1000) =
      List.replicate 100 Decision.admitted := by
  decide

/-- Claim C3, counterexample. With the store unreachable the request is
admitted, but the log-line trace of `dep` is empty: the `except
redis.ConnectionError` handler is `pass`, so the skipped enforcement is not
logged, contrary to the claim. -/
theorem rateLimit_failOpen_unlogged_cx :
    dep false 20 60 [] 1000 = (Decision.admitted, [], []) := rfl

/-- Claim C3, amended. Whenever the shared counter store is unreachable
during an admission check, the limiter admits the request (fails open,
leaving the store state untouched) instead of rejecting or raising, but it
does so silently: no log line is emitted. -/
theorem rateLimit_failOpen_silent (limit window_sec : Int) (s : ZSet) (now : Int) :
    dep false limit window_sec s now = (Decision.admitted, s, []) := rfl

/-- Claim C4, counterexample. For the pulled sequence
`[Done(token = None), Delta("x")]` the generator does not stop at the first
`Done`: the event after it is still pulled and framed, and no done frame is
emitted, so the output differs from that of the sequence truncated at the
first `Done`. -/
theorem chat_done_without_token_cx :
    genLoop [⟨"done", none, none⟩, ⟨"delta", some "x", none⟩] none =
      [sse "delta" "x"] ∧
    genLoop [⟨"done", none, none⟩] none = [] ∧
    genLoop [⟨"done", none, none⟩, ⟨"delta", some "x", none⟩] none ≠
      genLoop [⟨"done", none, none⟩] none := by
  decide

/-- Claim C4, amended. On pulling the first `Done` event whose continuation
token is present and non-empty, the generator emits its done frame and
stops pulling further events from the handle — whatever events or pending
exception would follow. -/
theorem chat_done_with_token_stops (e : StreamEvent) (rest : List StreamEvent)
    (r : Option String) (h1 : e.kind = "done") (h2 : truthy e.response_id = true) :
    genLoop (e :: rest) r = [sse "done" (e.response_id.getD "")] := by
  simp [genLoop, h1, h2]

/-- Claim C4 witness: a `Done` carrying token `"abc123"` followed by a
further delta and a pending exception still yields exactly the done frame. -/
theorem chat_done_with_token_stops_witness :
    genLoop [⟨"done", none, some "abc123"⟩, ⟨"delta", some "y", none⟩]
        (some "boom") =
      [sse "done" ((some "abc123").getD "")] :=
  chat_done_with_token_stops ⟨"done", none, some "abc123"⟩
    [⟨"delta", some "y", none⟩] (some "boom") rfl (by decide)

/-- Claim C6. The request `{message: "hi"}` served by an adapter yielding
`Delta("Hel")`, `Delta("lo")`, `Done("abc123")` produces exactly the three
transport frames of the spec, in order. -/
theorem chat_end_to_end_frames :
    genFrames { events := [⟨"delta", some "Hel", none⟩, ⟨"delta", some "lo", none⟩,
                           ⟨"done", none, some "abc123"⟩] } =
      ["event: delta\ndata: Hel\n\n", "event: delta\ndata: lo\n\n",
       "event: done\ndata: abc123\n\n"] := rfl

/-- Claim C10. A `Delta` event whose text is `None` or empty produces no
transport output, and a `Done` event whose continuation token is `None` or
empty produces no done frame and does not terminate the pulling loop: in
both cases the generator's output is exactly that of the remaining
events. -/
theorem chat_falsy_events_dropped (bad : Option String) (rest : List StreamEvent)
    (r : Option String) (h : truthy bad = false) :
    genLoop (⟨"delta", bad, none⟩ :: rest) r = genLoop rest r ∧
    genLoop (⟨"done", none, bad⟩ :: rest) r = genLoop rest r := by
  constructor <;> simp [genLoop, h]

/-- Claim C10 witness: an empty-text delta and an empty-token done are both
dropped in front of a further delta event. -/
theorem chat_falsy_events_dropped_witness :
    truthy (some "") = false ∧
    (genLoop [⟨"delta", some "", none⟩, ⟨"delta", some "x", none⟩] none =
        genLoop [⟨"delta", some "x", none⟩] none ∧
      genLoop [⟨"done", none, some ""⟩, ⟨"delta", some "x", none⟩] none =
        genLoop [⟨"delta", some "x", none⟩] none) :=
  ⟨by decide, chat_falsy_events_dropped (some "") [⟨"delta", some "x", none⟩]
    none (by decide)⟩

theorem genLoop_some_append (evs : List StreamEvent) (m : String)
    (h : ∀ e ∈ evs, (e.kind == "done" && truthy e.response_id) = false) :
    genLoop evs (some m) =
      genLoop evs none ++ [sse "error" ("Stream error: " ++ m)] := by
  induction evs with
  | nil => rfl
  | cons e rest ih =>
    have he := h e (List.mem_cons_self e rest)
    have hrest : ∀ x ∈ rest, (x.kind == "done" && truthy x.response_id) = false :=
      fun x hx => h x (List.mem_cons_of_mem e hx)
    by_cases hd : (e.kind == "delta" && truthy e.text) = true
    · simp [genLoop, hd, ih hrest]
    · have hd2 : (e.kind == "delta" && truthy e.text) = false := by simpa using hd
      simp [genLoop, hd2, he, ih hrest]

theorem genLoop_none_all_delta (evs : List StreamEvent)
    (h : ∀ e ∈ evs, (e.kind == "done" && truthy e.response_id) = false) :
    ∀ f ∈ genLoop evs none, ∃ t, f = sse "delta" t := by
  induction evs with
  | nil => simp [genLoop]
  | cons e rest ih =>
    have he := h e (List.mem_cons_self e rest)
    have hrest : ∀ x ∈ rest, (x.kind == "done" && truthy x.response_id) = false :=
      fun x hx => h x (List.mem_cons_of_mem e hx)
    by_cases hd : (e.kind == "delta" && truthy e.text) = true
    · intro f hf
      rw [genLoop] at hf
      simp only [hd, if_true] at hf
      rcases List.mem_cons.mp hf with hf | hf
      · exact ⟨e.text.getD "", hf⟩
      · exact ih hrest f hf
    · have hd2 : (e.kind == "delta" && truthy e.text) = false := by simpa using hd
      intro f hf
      rw [genLoop] at hf
      simp only [hd2, he, Bool.false_eq_true, if_false] at hf
      exact ih hrest f hf

/-- Claim C5. If the iteration raises after the events `evs` have been
pulled (none of which is a terminal done event, so the loop reaches the
failing pull), the generator emits the frames of the normal path — all
delta frames — followed by exactly one error frame, and the output holds
exactly one error frame and no done frame. -/
theorem chat_error_terminal (evs : List StreamEvent) (m : String)
    (h : ∀ e ∈ evs, (e.kind == "done" && truthy e.response_id) = false) :
    genLoop evs (some m) =
      genLoop evs none ++ [sse "error" ("Stream error: " ++ m)] ∧
    (genLoop evs (some m)).countP (frameHasKind "error") = 1 ∧
    (genLoop evs (some m)).countP (frameHasKind "done") = 0 := by
  have h1 := genLoop_some_append evs m h
  have h2 := genLoop_none_all_delta evs h
  refine ⟨h1, ?_, ?_⟩
  · rw [h1, List.countP_append]
    have hz : (genLoop evs none).countP (frameHasKind "error") = 0 := by
      rw [List.countP_eq_zero]
      intro f hf
      obtain ⟨t, rfl⟩ := h2 f hf
      simp [frameHasKind_error_delta]
    simp [hz, List.countP_cons, frameHasKind_error_error]
  · rw [h1, List.countP_append]
    have hz : (genLoop evs none).countP (frameHasKind "done") = 0 := by
      rw [List.countP_eq_zero]
      intro f hf
      obtain ⟨t, rfl⟩ := h2 f hf
      simp [frameHasKind_done_delta]
    simp [hz, List.countP_cons, frameHasKind_done_error]

/-- Claim C5 witness: a stream raising `"boom"` after one delta yields that
delta frame, then exactly one error frame and no done frame. -/
theorem chat_error_terminal_witness :
    (∀ e ∈ [(⟨"delta", some "Hel", none⟩ : StreamEvent)],
      (e.kind == "done" && truthy e.response_id) = false) ∧
    (genLoop [⟨"delta", some "Hel", none⟩] (some "boom") =
      genLoop [⟨"delta", some "Hel", none⟩] none ++
        [sse "error" ("Stream error: " ++ "boom")] ∧
    (genLoop [⟨"delta", some "Hel", none⟩] (some "boom")).countP
        (frameHasKind "error") = 1 ∧
    (genLoop [⟨"delta", some "Hel", none⟩] (some "boom")).countP
        (frameHasKind "done") = 0) :=
  ⟨by decide, chat_error_terminal [⟨"delta", some "Hel", none⟩] "boom" (by decide)⟩

theorem releasedOnce_cons (a : GenAct) (l : List GenAct)
    (ha : a ≠ GenAct.exitHandle)
    (hl : ∃ pre post, l = pre ++ GenAct.exitHandle :: post ∧
      GenAct.exitHandle ∉ pre ∧ GenAct.exitHandle ∉ post ∧ GenAct.pull ∉ post) :
    ∃ pre post, a :: l = pre ++ GenAct.exitHandle :: post ∧
      GenAct.exitHandle ∉ pre ∧ GenAct.exitHandle ∉ post ∧ GenAct.pull ∉ post := by
  obtain ⟨pre, post, rfl, h1, h2, h3⟩ := hl
  refine ⟨a :: pre, post, rfl, ?_, h2, h3⟩
  intro hmem
  rcases List.mem_cons.mp hmem with hh | hh
  · exact ha hh.symm
  · exact h1 hh

theorem genSteps_releasedOnce (evs : List StreamEvent) (r : Option String)
    (b : Option Nat) :
    ∃ pre post, genSteps evs r b = pre ++ GenAct.exitHandle :: post ∧
      GenAct.exitHandle ∉ pre ∧ GenAct.exitHandle ∉ post ∧ GenAct.pull ∉ post := by
  induction evs generalizing b with
  | nil =>
    cases r with
    | none => exact ⟨[GenAct.pull], [], rfl, by simp, by simp, by simp⟩
    | some m =>
      cases b with
      | none =>
        exact ⟨[GenAct.pull],
          [GenAct.yieldFrame (sse "error" ("Stream error: " ++ m)), GenAct.raiseOut m],
          rfl, by simp, by simp, by simp⟩
      | some k =>
        cases k with
        | zero => exact ⟨[GenAct.pull], [], rfl, by simp, by simp, by simp⟩
        | succ k2 =>
          exact ⟨[GenAct.pull],
            [GenAct.yieldFrame (sse "error" ("Stream error: " ++ m)), GenAct.raiseOut m],
            rfl, by simp, by simp, by simp⟩
  | cons e rest ih =>
    by_cases hd : (e.kind == "delta" && truthy e.text) = true
    · cases hb : takeYield b with
      | none =>
        refine ⟨[GenAct.pull], [], ?_, by simp, by simp, by simp⟩
        simp [genSteps, hd, hb]
      | some b2 =>
        have step : genSteps (e :: rest) r b =
            GenAct.pull :: GenAct.yieldFrame (sse "delta" (e.text.getD "")) ::
              genSteps rest r b2 := by
          simp [genSteps, hd, hb]
        rw [step]
        exact releasedOnce_cons _ _ (by simp)
          (releasedOnce_cons _ _ (by simp) (ih b2))
    · have hd2 : (e.kind == "delta" && truthy e.text) = false := by simpa using hd
      by_cases ho : (e.kind == "done" && truthy e.response_id) = true
      · cases hb : takeYield b with
        | none =>
          refine ⟨[GenAct.pull], [], ?_, by simp, by simp, by simp⟩
          simp [genSteps, hd2, ho, hb]
        | some b2 =>
          refine ⟨[GenAct.pull, GenAct.yieldFrame (sse "done" (e.response_id.getD ""))],
            [], ?_, by simp, by simp, by simp⟩
          simp [genSteps, hd2, ho, hb]
      · have ho2 : (e.kind == "done" && truthy e.response_id) = false := by simpa using ho
        have step : genSteps (e :: rest) r b = GenAct.pull :: genSteps rest r b := by
          simp [genSteps, hd2, ho2]
        rw [step]
        exact releasedOnce_cons _ _ (by simp) (ih b)

/-- Claim C7, counterexample. `_GeminiStreamAdapter.__exit__` is `pass`: it
leaves the adapter, and in particular the underlying vendor stream, exactly
as it was, so an open vendor network connection is still open after the
scoped-acquisition exit — the exit does not release it. -/
theorem gemini_exit_noop_cx :
    (Gemini.adapterExit { stream := { closed := false } }).stream.closed = false := rfl

/-- Claim C7, amended. On every exit path of the generator once the stream
handle is acquired — exhaustion, break on a terminal done, an exception
from a pull, or a client disconnect after any number of frames — the trace
invokes the handle's scoped-acquisition exit exactly once, and no pull from
the handle occurs after that exit. (What the exit itself releases is the
adapter's concern; the Gemini adapter's exit is a no-op.) -/
theorem chat_handle_released_once (evs : List StreamEvent) (r : Option String)
    (b : Option Nat) :
    ∃ pre post, genTrace ⟨evs, r⟩ b = pre ++ GenAct.exitHandle :: post ∧
      GenAct.exitHandle ∉ pre ∧ GenAct.exitHandle ∉ post ∧ GenAct.pull ∉ post :=
  releasedOnce_cons GenAct.acquire _ (by simp) (genSteps_releasedOnce evs r b)

theorem str_append_assoc (a b c : String) : a ++ b ++ c = a ++ (b ++ c) := by
  apply String.ext
  simp [String.data_append, List.append_assoc]

theorem lookup_map_set (reg : Registry) (k : String) (v : ProviderClass)
    (h : reg.any (fun p => p.1 == k) = true) :
    lookupKey (reg.map (fun p => if p.1 == k then (k, v) else p)) k = some v := by
  induction reg with
  | nil => simp at h
  | cons a tl ih =>
    by_cases ha : (a.1 == k) = true
    · simp [lookupKey, List.find?, ha]
    · have ha2 : (a.1 == k) = false := by simpa using ha
      simp only [List.any_cons] at h
      rw [ha2] at h
      have htl : tl.any (fun p => p.1 == k) = true := by simpa using h
      have := ih htl
      simpa [lookupKey, List.find?, ha2] using this

theorem lookup_append_miss (reg : Registry) (k : String) (v : ProviderClass)
    (h : reg.any (fun p => p.1 == k) = false) :
    lookupKey (reg ++ [(k, v)]) k = some v := by
  induction reg with
  | nil => simp [lookupKey, List.find?]
  | cons a tl ih =>
    simp only [List.any_cons] at h
    have ha : (a.1 == k) = false := by
      cases hak : (a.1 == k) with
      | false => rfl
      | true => simp [hak] at h
    have htl : tl.any (fun p => p.1 == k) = false := by
      cases hak : tl.any (fun p => p.1 == k) with
      | false => rfl
      | true => simp [hak] at h
    have := ih htl
    simpa [lookupKey, List.find?, ha] using this

theorem lookup_setKey (reg : Registry) (k : String) (v : ProviderClass) :
    lookupKey (setKey reg k v) k = some v := by
  unfold setKey
  by_cases h : reg.any (fun p => p.1 == k) = true
  · simp only [h, if_true]
    exact lookup_map_set reg k v h
  · have h2 : reg.any (fun p => p.1 == k) = false := by
      cases hcase : reg.any (fun p => p.1 == k) with
      | false => rfl
      | true => exact absurd hcase h
    simp only [h2, Bool.false_eq_true, if_false]
    exact lookup_append_miss reg k v h2

/-- Claim C8. Resolving a provider setting whose normalized key is not in
the registry fails before anything streams, with an error message that
names the requested key (it occurs verbatim in the message) and carries the
formatted list of the known keys; and resolving a non-empty key right after
registering it returns that provider. -/
theorem factory_resolution (reg : Registry) (setting name : String)
    (cls : ProviderClass)
    (h1 : lookupKey reg (pyLower (pyStrip (pyOr setting "openai"))) = none)
    (h2 : name ≠ "") :
    get_llm_provider reg setting =
      .error ("Unknown LLM_PROVIDER=" ++ pyRepr setting ++ ". Supported: " ++
        keysRepr reg) ∧
    (∃ a b, "Unknown LLM_PROVIDER=" ++ pyRepr setting ++ ". Supported: " ++
        keysRepr reg = a ++ setting ++ b) ∧
    get_llm_provider (register_provider reg name cls) name = .ok cls := by
  refine ⟨?_, ?_, ?_⟩
  · rw [get_llm_provider, h1]
  · refine ⟨"Unknown LLM_PROVIDER=" ++ "\x27",
      "\x27" ++ ". Supported: " ++ keysRepr reg, ?_⟩
    rw [pyRepr]
    simp only [str_append_assoc]
  · rw [get_llm_provider]
    have hp : pyOr name "openai" = name := by simp [pyOr, h2]
    rw [hp, register_provider, lookup_setKey]

/-- Claim C8 witness: `"unknown-vendor"` misses a registry holding only
`"openai"` and produces the naming error, while `"gemini"` resolves right
after being registered. -/
theorem factory_resolution_witness :
    lookupKey [("openai", ProviderClass.openaiProvider)]
        (pyLower (pyStrip (pyOr "unknown-vendor" "openai"))) = none ∧
    ("gemini" : String) ≠ "" ∧
    (get_llm_provider [("openai", ProviderClass.openaiProvider)] "unknown-vendor" =
        .error ("Unknown LLM_PROVIDER=" ++ pyRepr "unknown-vendor" ++
          ". Supported: " ++ keysRepr [("openai", ProviderClass.openaiProvider)]) ∧
      (∃ a b, "Unknown LLM_PROVIDER=" ++ pyRepr "unknown-vendor" ++ ". Supported: " ++
          keysRepr [("openai", ProviderClass.openaiProvider)] =
        a ++ "unknown-vendor" ++ b) ∧
      get_llm_provider
          (register_provider [("openai", ProviderClass.openaiProvider)] "gemini"
            ProviderClass.geminiProvider) "gemini" =
        .ok ProviderClass.geminiProvider) :=
  ⟨by decide, by decide,
    factory_resolution [("openai", ProviderClass.openaiProvider)] "unknown-vendor"
      "gemini" ProviderClass.geminiProvider (by decide) (by decide)⟩

/-- Claim C9, counterexample. With no configured model and discovery
returning only a model that is in none of the preferences, selection
silently yields that model — no configuration error is raised and the pick
is not a candidate from the preference-ordered list. -/
theorem gemini_selection_cx :
    selectModelName "" ["some-unlisted-model"] = "some-unlisted-model" ∧
    "some-unlisted-model" ∉ preferred_models := by
  decide

/-- Claim C9, amended. With no configured model, `stream_chat` picks the
first preference-list model among the discovered ones; when no preference
is available it falls back to the first discovered model, and when
discovery returned nothing to the head of the preference list — selection
itself never raises. -/
theorem gemini_selection_characterization (model : String) (available : List String) :
    selectModelName model available =
      if model = "" then
        match preferred_models.find? (fun p => available.contains p) with
        | some p => p
        | none => available.headD "gemini-3-flash-preview"
      else model := by
  by_cases hm : model = ""
  · subst hm
    rw [if_pos rfl]
    have h0 : (("" : String) != "") = false := rfl
    simp only [selectModelName, h0, Bool.false_eq_true, if_false]
    by_cases hav : available = []
    · subst hav
      decide
    · have hav2 : available.isEmpty = false := by
        simpa [List.isEmpty_iff] using hav
      simp only [hav2, Bool.false_eq_true, if_false]
      cases hf : preferred_models.find? (fun p => available.contains p) with
      | some p =>
        have hpmem : p ∈ preferred_models := List.mem_of_find?_eq_some hf
        have hpd : p = "gemini-3-flash-preview" ∨ p = "gemini-1.5-flash" ∨
            p = "gemini-1.5-pro" ∨ p = "gemini-2.0-flash" := by
          simpa [preferred_models] using hpmem
        have hpne : ¬ p = "" := by
          rcases hpd with rfl | rfl | rfl | rfl <;> decide
        simp only [Option.getD_some, if_neg hpne]
      | none =>
        simp only [Option.getD_none, if_pos rfl]
        cases available with
        | nil => exact absurd rfl hav
        | cons a t => rfl
  · have hm2 : (model != "") = true := by simpa using hm
    simp only [selectModelName, hm2, if_true, if_neg hm]

end SgAskMe
